import Mathlib

/-!
Shallow embedding of the restriction-enzyme digestion analyzer
(`RestrictionEnzyme` / `DNADigest` in `python.py`).

Sequences are modelled as `List Char`.  Python exceptions are modelled by
`Except String`.  The two error messages raised by
`DNADigest.find_restriction_sites` are kept verbatim.
-/

/-- Equality of `Except` values is decidable when it is on both components;
used to evaluate the embedded operations on concrete inputs. -/
instance {ε α : Type} [DecidableEq ε] [DecidableEq α] : DecidableEq (Except ε α)
  | .ok a, .ok b => decidable_of_iff (a = b) (by simp)
  | .ok _, .error _ => .isFalse (fun h => Except.noConfusion h)
  | .error _, .ok _ => .isFalse (fun h => Except.noConfusion h)
  | .error a, .error b => decidable_of_iff (a = b) (by simp)

namespace DNADigest

/-- `s.upper().replace(' ','').replace('\n','').replace('\t','')` keeps a
character unless it is a space, newline or tab. -/
def isKept (c : Char) : Bool := !(c == ' ' || c == '\n' || c == '\t')

/-- Normalization applied to DNA sequences throughout the code:
uppercase, then remove spaces, newlines and tabs. -/
def normalize (s : List Char) : List Char := (s.map Char.toUpper).filter isKept

/-- Normalization applied to recognition sequences: `recognition_seq.upper()`
only (no whitespace removal). -/
def upperOnly (s : List Char) : List Char := s.map Char.toUpper

/-- `all(base in valid_bases for base in s)` with `valid_bases = set('ATCG')`. -/
def validSeq (s : List Char) : Bool :=
  s.all (fun c => c == 'A' || c == 'T' || c == 'C' || c == 'G')

/-- Message of the `ValueError` raised for an invalid DNA sequence. -/
def seqErr : String := "DNA sequence contains invalid characters. Use only A, T, C, G."

/-- Message of the `ValueError` raised for an invalid recognition sequence. -/
def patErr : String := "Recognition sequence contains invalid characters. Use only A, T, C, G."

/-- The scan loop of `find_restriction_sites`:
`for i in range(len(dna_seq) - len(recognition_seq) + 1)`, appending `i`
whenever `dna_seq[i:i+len(recognition_seq)] == recognition_seq`.
Python's `range` of a negative bound is empty; `List.range (d.length + 1 - r.length)`
with truncated subtraction matches it exactly. -/
def sitesScan (d r : List Char) : List Nat :=
  (List.range (d.length + 1 - r.length)).filter
    (fun i => (d.drop i).take r.length == r)

/-- `DNADigest.find_restriction_sites`: normalize both strings, validate the
alphabet of each (sequence first), then run the scan. -/
def find_restriction_sites (dna_seq recognition_seq : List Char) :
    Except String (List Nat) :=
  let d := normalize dna_seq
  let r := upperOnly recognition_seq
  if !validSeq d then .error seqErr
  else if !validSeq r then .error patErr
  else .ok (sitesScan d r)

/-- The apostrophe character, used in the overhang labels. -/
def apos : Char := Char.ofNat 39

/-- The string `"blunt"`. -/
def bluntStr : List Char := ['b', 'l', 'u', 'n', 't']

/-- The string for a five-prime overhang. -/
def fiveStr : List Char := ['5', apos, ' ', 'o', 'v', 'e', 'r', 'h', 'a', 'n', 'g']

/-- The string for a three-prime overhang. -/
def threeStr : List Char := ['3', apos, ' ', 'o', 'v', 'e', 'r', 'h', 'a', 'n', 'g']

/-- `RestrictionEnzyme.get_overhang_type`, as a pure function of the two cut
positions (the enzyme object carries no other relevant state). -/
def get_overhang_type (cut_pos_5 cut_pos_3 : Int) : List Char :=
  if cut_pos_5 = cut_pos_3 then bluntStr
  else if cut_pos_5 > cut_pos_3 then fiveStr
  else threeStr

/-- The dictionary returned by `DNADigest.digest_dna`.  The zero-site branch
of the code omits the `'recognition_sites'` key, so that field is an
`Option`: `none` models the absent key. -/
structure DigestResult where
  enzyme : List Char
  recognition_sequence : List Char
  cut_sites : List Nat
  fragments : List (List Char)
  fragment_lengths : List Nat
  overhang_type : List Char
  total_sites : Nat
  recognition_sites : Option (List Nat)
deriving Repr, DecidableEq

/-- The cut-coordinate computation shared by both digest paths: for each site
`s`, keep `s + cut_pos_5` when `0 <= s + cut_pos_5 <= len(dna_seq)`, drop it
otherwise.  Cut positions are Python ints, modelled as `Int`; the survivors
are nonnegative so they are stored as `Nat`. -/
def cutPositions (len : Nat) (cut_pos_5 : Int) (sites : List Nat) : List Nat :=
  sites.filterMap (fun (s : Nat) =>
    let c : Int := (s : Int) + cut_pos_5
    if 0 ≤ c ∧ c ≤ (len : Int) then some c.toNat else none)

/-- The fragment-generation cursor walk shared by both digest paths:
`start = 0`; for each cut `c`, emit `dna_seq[start:c]` when `start < c`, then
set `start = c`; finally emit `dna_seq[start:]` when `start < len(dna_seq)`. -/
def genFragments (d : List Char) : List Nat → Nat → List (List Char)
  | [], start => if start < d.length then [d.drop start] else []
  | c :: cs, start =>
      if start < c then (d.drop start).take (c - start) :: genFragments d cs c
      else genFragments d cs c

/-- `DNADigest.digest_dna`.  `cut_pos_3 = none` models the Python default
`None` (replaced by `cut_pos_5`). -/
def digest_dna (dna_seq recognition_seq : List Char) (cut_pos_5 : Int)
    (cut_pos_3 : Option Int := none) (enzyme_name : List Char := ['C','u','s','t','o','m']) :
    Except String DigestResult :=
  let d := normalize dna_seq
  match find_restriction_sites d recognition_seq with
  | .error e => .error e
  | .ok sites =>
    let c3 := cut_pos_3.getD cut_pos_5
    if sites.isEmpty then
      .ok { enzyme := enzyme_name
            recognition_sequence := recognition_seq
            cut_sites := []
            fragments := [d]
            fragment_lengths := [d.length]
            overhang_type := get_overhang_type cut_pos_5 c3
            total_sites := 0
            recognition_sites := none }
    else
      let cut_sites := cutPositions d.length cut_pos_5 sites
      let fragments :=
        (genFragments d (cut_sites.insertionSort (· ≤ ·)) 0).filter (fun f => !f.isEmpty)
      .ok { enzyme := enzyme_name
            recognition_sequence := recognition_seq
            cut_sites := cut_sites
            fragments := fragments
            fragment_lengths := fragments.map List.length
            overhang_type := get_overhang_type cut_pos_5 c3
            total_sites := sites.length
            recognition_sites := some sites }

/-- One tuple of `enzymes_data`: `(name, recognition_seq, cut_pos_5, cut_pos_3)`,
where the fourth component may be absent (`enzyme_data[3] if len(enzyme_data) > 3
else cut_pos_5`). -/
structure EnzymeData where
  name : List Char
  recognition_seq : List Char
  cut_pos_5 : Int
  cut_pos_3 : Option Int
deriving Repr, DecidableEq

/-- One entry of the `enzyme_info` list built by `multiple_digest`. -/
structure EnzymeInfo where
  name : List Char
  recognition_seq : List Char
  sites : Nat
  cut_positions : List Nat
deriving Repr, DecidableEq

/-- The dictionary returned by `DNADigest.multiple_digest`. -/
structure MultiDigestResult where
  enzymes : List EnzymeInfo
  total_cuts : Nat
  cut_positions : List Nat
  fragments : List (List Char)
  fragment_lengths : List Nat
deriving Repr, DecidableEq

/-- The per-enzyme loop of `multiple_digest`: search sites, keep the in-range
cut coordinates, extend `all_cuts` and append to `enzyme_info`; a `ValueError`
from `find_restriction_sites` aborts the whole call. -/
def processEnzymes (d : List Char) :
    List EnzymeData → Except String (List Nat × List EnzymeInfo)
  | [] => .ok ([], [])
  | e :: rest =>
    match find_restriction_sites d e.recognition_seq with
    | .error err => .error err
    | .ok sites =>
      let cuts := cutPositions d.length e.cut_pos_5 sites
      match processEnzymes d rest with
      | .error err => .error err
      | .ok (allCuts, infos) =>
        .ok (cuts ++ allCuts,
             { name := e.name
               recognition_seq := e.recognition_seq
               sites := sites.length
               cut_positions := cuts } :: infos)

/-- `sorted(set(all_cuts))`: the strictly increasing enumeration of the set
of elements of `all_cuts`, realized as deduplication followed by sorting. -/
def sortedDedup (l : List Nat) : List Nat := l.dedup.insertionSort (· ≤ ·)

/-- `DNADigest.multiple_digest`. -/
def multiple_digest (dna_seq : List Char) (enzymes_data : List EnzymeData) :
    Except String MultiDigestResult :=
  let d := normalize dna_seq
  match processEnzymes d enzymes_data with
  | .error e => .error e
  | .ok (allCuts, infos) =>
    let all_cuts := sortedDedup allCuts
    let fragments := genFragments d all_cuts 0
    .ok { enzymes := infos
          total_cuts := all_cuts.length
          cut_positions := all_cuts
          fragments := fragments
          fragment_lengths := fragments.map List.length }

/-! ### Helper lemmas about characters and normalization -/

/-- `Char.ofNat` on a value below the surrogate range round-trips through
`toNat`. -/
theorem toNat_ofNat_valid (n : Nat) (h : n < 0xd800) :
    (Char.ofNat n).toNat = n := by
  unfold Char.ofNat
  rw [dif_pos (Or.inl h)]
  rfl

/-- `str.upper()` is idempotent character by character. -/
theorem toUpper_toUpper (c : Char) : c.toUpper.toUpper = c.toUpper := by
  unfold Char.toUpper
  by_cases h : c.toNat ≥ 97 ∧ c.toNat ≤ 122
  · rw [if_pos h]
    have hv : (Char.ofNat (c.toNat - 32)).toNat = c.toNat - 32 :=
      toNat_ofNat_valid _ (by omega)
    rw [if_neg (by rw [hv]; omega)]
  · rw [if_neg h, if_neg h]

/-- Normalizing a sequence twice is the same as normalizing it once. -/
theorem normalize_idem (s : List Char) : normalize (normalize s) = normalize s := by
  unfold normalize
  induction s with
  | nil => rfl
  | cons c t ih =>
    simp only [List.map_cons]
    by_cases h : isKept c.toUpper
    · rw [List.filter_cons_of_pos h, List.map_cons, toUpper_toUpper,
        List.filter_cons_of_pos h, ih]
    · rw [List.filter_cons_of_neg h, ih]

/-! ### Helper lemmas about the fragment cursor walk -/

/-- Concatenating the fragments emitted by the cursor walk over a
nondecreasing cut list starting at `start` recovers `d.drop start`. -/
theorem genFragments_flatten (d : List Char) :
    ∀ (cuts : List Nat) (start : Nat), (start :: cuts).Pairwise (· ≤ ·) →
      (genFragments d cuts start).flatten = d.drop start := by
  intro cuts
  induction cuts with
  | nil =>
    intro start _
    unfold genFragments
    by_cases h : start < d.length
    · simp [h]
    · simp [h, List.drop_eq_nil_of_le (Nat.le_of_not_lt h)]
  | cons c cs ih =>
    intro start hp
    have hsc : start ≤ c := (List.pairwise_cons.1 hp).1 c (List.mem_cons_self c cs)
    have hp' : (c :: cs).Pairwise (· ≤ ·) := (List.pairwise_cons.1 hp).2
    unfold genFragments
    by_cases h : start < c
    · rw [if_pos h, List.flatten_cons, ih c hp']
      have hd : d.drop c = (d.drop start).drop (c - start) := by
        rw [List.drop_drop]
        congr 1
        omega
      rw [hd, List.take_append_drop]
    · rw [if_neg h]
      have : start = c := Nat.le_antisymm hsc (Nat.le_of_not_lt h)
      rw [ih c hp', this]

/-- When every cut is within the sequence, the cursor walk never emits an
empty fragment. -/
theorem genFragments_ne_nil (d : List Char) :
    ∀ (cuts : List Nat) (start : Nat), (∀ c ∈ cuts, c ≤ d.length) →
      ∀ f ∈ genFragments d cuts start, f ≠ [] := by
  intro cuts
  induction cuts with
  | nil =>
    intro start _ f hf
    unfold genFragments at hf
    by_cases h : start < d.length
    · rw [if_pos h] at hf
      rcases List.mem_singleton.1 hf with rfl
      intro hnil
      rw [List.drop_eq_nil_iff] at hnil
      omega
    · rw [if_neg h] at hf
      exact absurd hf (List.not_mem_nil f)
  | cons c cs ih =>
    intro start hc f hf
    unfold genFragments at hf
    by_cases h : start < c
    · rw [if_pos h] at hf
      rcases List.mem_cons.1 hf with rfl | hf'
      · intro hnil
        have hlen := congrArg List.length hnil
        rw [List.length_take, List.length_drop] at hlen
        have hcd : c ≤ d.length := hc c (List.mem_cons_self c cs)
        simp only [List.length_nil] at hlen
        omega
      · exact ih c (fun x hx => hc x (List.mem_cons_of_mem _ hx)) f hf'
    · rw [if_neg h] at hf
      exact ih c (fun x hx => hc x (List.mem_cons_of_mem _ hx)) f hf

/-! ### Helper lemmas about the site scan and cut coordinates -/

/-- The scan reports offsets in strictly increasing order. -/
theorem sitesScan_pairwise (d r : List Char) :
    (sitesScan d r).Pairwise (· < ·) :=
  (List.pairwise_lt_range _).filter _

/-- Membership in the scan output: `i` is reported exactly when the window
fits and the substring of length `r.length` at `i` equals `r`. -/
theorem mem_sitesScan {d r : List Char} {i : Nat} :
    i ∈ sitesScan d r ↔
      i + r.length ≤ d.length ∧ (d.drop i).take r.length = r := by
  unfold sitesScan
  rw [List.mem_filter, List.mem_range]
  constructor
  · rintro ⟨hi, hm⟩
    exact ⟨by omega, by simpa using hm⟩
  · rintro ⟨hi, hm⟩
    exact ⟨by omega, by simpa using hm⟩

/-- The surviving cut coordinates are strictly increasing whenever the site
offsets are. -/
theorem cutPositions_pairwise {sites : List Nat} (len : Nat) (c5 : Int)
    (h : sites.Pairwise (· < ·)) :
    (cutPositions len c5 sites).Pairwise (· < ·) := by
  unfold cutPositions
  refine List.Pairwise.filterMap _ ?_ h
  intro a a' hlt b hb b' hb'
  simp only [Option.mem_def] at hb hb'
  split at hb
  · split at hb'
    · rename_i h1 h2
      injection hb with hb
      injection hb' with hb'
      omega
    · exact absurd hb' (by simp)
  · exact absurd hb (by simp)

/-- Membership in the surviving cut coordinates. -/
theorem mem_cutPositions {len : Nat} {c5 : Int} {sites : List Nat} {c : Nat} :
    c ∈ cutPositions len c5 sites ↔
      ∃ s ∈ sites, (s : Int) + c5 = (c : Int) ∧ c ≤ len := by
  unfold cutPositions
  rw [List.mem_filterMap]
  constructor
  · rintro ⟨s, hs, heq⟩
    dsimp only at heq
    split at heq
    · rename_i hcond
      injection heq with heq
      exact ⟨s, hs, by omega, by omega⟩
    · exact absurd heq (by simp)
  · rintro ⟨s, hs, heq, hle⟩
    refine ⟨s, hs, ?_⟩
    dsimp only
    rw [if_pos (by omega)]
    congr 1
    omega

/-! ### Helper lemmas about `sorted(set(...))` -/

/-- `sorted(set(l))` is strictly increasing. -/
theorem sortedDedup_sorted_lt (l : List Nat) :
    (sortedDedup l).Pairwise (· < ·) := by
  unfold sortedDedup
  have hn : (l.dedup.insertionSort (· ≤ ·)).Nodup :=
    (List.perm_insertionSort (· ≤ ·) l.dedup).nodup_iff.2 (List.nodup_dedup l)
  exact (List.sorted_insertionSort (· ≤ ·) l.dedup).lt_of_le hn

/-- `sorted(set(l))` has the same members as `l`. -/
theorem mem_sortedDedup {l : List Nat} {x : Nat} :
    x ∈ sortedDedup l ↔ x ∈ l := by
  unfold sortedDedup
  rw [(List.perm_insertionSort (· ≤ ·) l.dedup).mem_iff, List.mem_dedup]

/-- `sorted(set(...))` does not depend on the order of the input list. -/
theorem sortedDedup_congr_perm {l₁ l₂ : List Nat} (h : l₁.Perm l₂) :
    sortedDedup l₁ = sortedDedup l₂ := by
  unfold sortedDedup
  refine List.eq_of_perm_of_sorted ?_ (List.sorted_insertionSort _ _)
    (List.sorted_insertionSort _ _)
  exact ((List.perm_insertionSort _ _).trans h.dedup).trans
    (List.perm_insertionSort _ _).symm

/-! ### Helper lemmas about the fallible operations -/

/-- A successful site search certifies both alphabet checks and exposes the
scan result. -/
theorem find_ok {dna r : List Char} {sites : List Nat}
    (h : find_restriction_sites dna r = .ok sites) :
    validSeq (normalize dna) = true ∧ validSeq (upperOnly r) = true ∧
      sites = sitesScan (normalize dna) (upperOnly r) := by
  unfold find_restriction_sites at h
  by_cases h1 : validSeq (normalize dna)
  · by_cases h2 : validSeq (upperOnly r)
    · refine ⟨h1, h2, ?_⟩
      simp only [h1, h2, Bool.not_true, Bool.false_eq_true, if_false,
        Except.ok.injEq] at h
      exact h.symm
    · simp [h1, h2] at h
  · simp [h1] at h

/-- The site search succeeds exactly when both alphabet checks pass. -/
theorem find_isOk (dna r : List Char) :
    (find_restriction_sites dna r).isOk =
      (validSeq (normalize dna) && validSeq (upperOnly r)) := by
  unfold find_restriction_sites
  by_cases h1 : validSeq (normalize dna) <;> by_cases h2 : validSeq (upperOnly r) <;>
    simp [h1, h2, Except.isOk, Except.toBool]

/-- Shape of the digest result when no site is found. -/
theorem digest_dna_no_sites {s p : List Char} {c5 : Int} {c3 : Option Int}
    {n : List Char} (hf : find_restriction_sites (normalize s) p = .ok []) :
    digest_dna s p c5 c3 n = .ok
      { enzyme := n, recognition_sequence := p, cut_sites := [],
        fragments := [normalize s], fragment_lengths := [(normalize s).length],
        overhang_type := get_overhang_type c5 (c3.getD c5), total_sites := 0,
        recognition_sites := none } := by
  unfold digest_dna
  dsimp only
  rw [hf]
  rfl

/-- Shape of the digest result when at least one site is found. -/
theorem digest_dna_with_sites {s p : List Char} {c5 : Int} {c3 : Option Int}
    {n : List Char} {sites : List Nat}
    (hf : find_restriction_sites (normalize s) p = .ok sites) (hne : sites ≠ []) :
    digest_dna s p c5 c3 n = .ok
      { enzyme := n, recognition_sequence := p,
        cut_sites := cutPositions (normalize s).length c5 sites,
        fragments := (genFragments (normalize s)
          ((cutPositions (normalize s).length c5 sites).insertionSort (· ≤ ·)) 0).filter
            (fun f => !f.isEmpty),
        fragment_lengths := ((genFragments (normalize s)
          ((cutPositions (normalize s).length c5 sites).insertionSort (· ≤ ·)) 0).filter
            (fun f => !f.isEmpty)).map List.length,
        overhang_type := get_overhang_type c5 (c3.getD c5),
        total_sites := sites.length,
        recognition_sites := some sites } := by
  unfold digest_dna
  dsimp only
  rw [hf]
  dsimp only
  rw [if_neg (by simpa using hne)]

/-- The per-enzyme cut coordinates, as a pure function of the working
sequence and one descriptor. -/
def enzymeCuts (d : List Char) (e : EnzymeData) : List Nat :=
  cutPositions d.length e.cut_pos_5 (sitesScan (normalize d) (upperOnly e.recognition_seq))

/-- The per-enzyme report entry, as a pure function. -/
def enzymeInfoOf (d : List Char) (e : EnzymeData) : EnzymeInfo :=
  { name := e.name
    recognition_seq := e.recognition_seq
    sites := (sitesScan (normalize d) (upperOnly e.recognition_seq)).length
    cut_positions := enzymeCuts d e }

/-- A successful per-enzyme loop produces the concatenated per-enzyme cut
lists and the per-enzyme reports, in descriptor order. -/
theorem processEnzymes_ok {d : List Char} :
    ∀ {l : List EnzymeData} {cuts : List Nat} {infos : List EnzymeInfo},
      processEnzymes d l = .ok (cuts, infos) →
      cuts = l.flatMap (enzymeCuts d) ∧ infos = l.map (enzymeInfoOf d) := by
  intro l
  induction l with
  | nil =>
    intro cuts infos h
    unfold processEnzymes at h
    simp only [Except.ok.injEq, Prod.mk.injEq] at h
    simp [h.1.symm, h.2.symm]
  | cons e rest ih =>
    intro cuts infos h
    unfold processEnzymes at h
    cases hf : find_restriction_sites d e.recognition_seq with
    | error err => rw [hf] at h; exact absurd h (by simp)
    | ok sites =>
      rw [hf] at h
      cases hr : processEnzymes d rest with
      | error err => rw [hr] at h; exact absurd h (by simp)
      | ok pr =>
        obtain ⟨cuts', infos'⟩ := pr
        rw [hr] at h
        dsimp only at h
        simp only [Except.ok.injEq, Prod.mk.injEq] at h
        obtain ⟨hcuts, hinfos⟩ := h
        obtain ⟨hc, hi⟩ := ih hr
        obtain ⟨hv1, hv2, hsites⟩ := find_ok hf
        subst hsites hc hi
        rw [List.flatMap_cons, List.map_cons]
        exact ⟨hcuts.symm, hinfos.symm⟩

/-- The per-enzyme loop succeeds exactly when the descriptor list is empty, or
the working sequence and every recognition pattern pass the alphabet check. -/
theorem processEnzymes_isOk (d : List Char) :
    ∀ l : List EnzymeData,
      (processEnzymes d l).isOk =
        (l.isEmpty || (validSeq (normalize d) &&
          l.all (fun e => validSeq (upperOnly e.recognition_seq)))) := by
  intro l
  induction l with
  | nil => rfl
  | cons e rest ih =>
    unfold processEnzymes
    cases hf : find_restriction_sites d e.recognition_seq with
    | error err =>
      have hio := find_isOk d e.recognition_seq
      rw [hf] at hio
      cases hvd : validSeq (normalize d) <;>
        cases hve : validSeq (upperOnly e.recognition_seq) <;>
          simp_all [Except.isOk, Except.toBool]
    | ok sites =>
      have hio := find_isOk d e.recognition_seq
      rw [hf] at hio
      cases hr : processEnzymes d rest with
      | error err =>
        rw [hr] at ih
        cases hvd : validSeq (normalize d) <;>
          cases hve : validSeq (upperOnly e.recognition_seq) <;>
            cases hra : rest.all (fun e => validSeq (upperOnly e.recognition_seq)) <;>
              cases hrest : rest <;> simp_all [Except.isOk, Except.toBool]
      | ok pr =>
        obtain ⟨cuts', infos'⟩ := pr
        rw [hr] at ih
        cases hvd : validSeq (normalize d) <;>
          cases hve : validSeq (upperOnly e.recognition_seq) <;>
            cases hra : rest.all (fun e => validSeq (upperOnly e.recognition_seq)) <;>
              cases hrest : rest <;> simp_all [Except.isOk, Except.toBool]

/-- The multi-enzyme digest succeeds exactly when the descriptor list is
empty, or the sequence and every pattern pass the alphabet check. -/
theorem multiple_digest_isOk (s : List Char) (l : List EnzymeData) :
    (multiple_digest s l).isOk =
      (l.isEmpty || (validSeq (normalize s) &&
        l.all (fun e => validSeq (upperOnly e.recognition_seq)))) := by
  have hp := processEnzymes_isOk (normalize s) l
  rw [normalize_idem] at hp
  unfold multiple_digest
  dsimp only
  cases hr : processEnzymes (normalize s) l with
  | error err =>
    rw [hr] at hp
    dsimp only [Except.isOk, Except.toBool] at hp ⊢
    exact hp
  | ok pr =>
    obtain ⟨cuts, infos⟩ := pr
    rw [hr] at hp
    dsimp only [Except.isOk, Except.toBool] at hp ⊢
    exact hp

/-- Shape of a successful multi-enzyme digest. -/
theorem multiple_digest_ok {s : List Char} {l : List EnzymeData}
    {r : MultiDigestResult} (h : multiple_digest s l = .ok r) :
    r = { enzymes := l.map (enzymeInfoOf (normalize s)),
          total_cuts := (sortedDedup (l.flatMap (enzymeCuts (normalize s)))).length,
          cut_positions := sortedDedup (l.flatMap (enzymeCuts (normalize s))),
          fragments := genFragments (normalize s)
            (sortedDedup (l.flatMap (enzymeCuts (normalize s)))) 0,
          fragment_lengths := (genFragments (normalize s)
            (sortedDedup (l.flatMap (enzymeCuts (normalize s)))) 0).map List.length } := by
  unfold multiple_digest at h
  dsimp only at h
  cases hp : processEnzymes (normalize s) l with
  | error e => rw [hp] at h; exact absurd h (by simp)
  | ok pr =>
    obtain ⟨cuts, infos⟩ := pr
    rw [hp] at h
    obtain ⟨hc, hi⟩ := processEnzymes_ok hp
    dsimp only at h
    simp only [Except.ok.injEq] at h
    subst hc hi
    exact h.symm

/-- Fragments of a successful single-enzyme digest: they concatenate to the
normalized sequence, and an empty fragment can only be the lone fragment of
the empty normalized sequence. -/
theorem digest_fragments_spec {s p : List Char} {c5 : Int} {c3 : Option Int}
    {n : List Char} {r : DigestResult} (h : digest_dna s p c5 c3 n = .ok r) :
    r.fragments.flatten = normalize s ∧
      (∀ f ∈ r.fragments, f = [] → (normalize s = [] ∧ r.fragments = [[]])) := by
  cases hf : find_restriction_sites (normalize s) p with
  | error e =>
    unfold digest_dna at h
    dsimp only at h
    rw [hf] at h
    exact absurd h (by simp)
  | ok sites =>
    by_cases hs : sites = []
    · subst hs
      rw [digest_dna_no_sites hf] at h
      injection h with h
      subst h
      refine ⟨by simp, ?_⟩
      intro f hf2 hfe
      rcases List.mem_singleton.1 hf2 with rfl
      exact ⟨hfe, by rw [hfe]⟩
    · rw [digest_dna_with_sites hf hs] at h
      injection h with h
      subst h
      constructor
      · have hpw : ((0 : Nat) ::
            (cutPositions (normalize s).length c5 sites).insertionSort (· ≤ ·)).Pairwise
              (· ≤ ·) :=
          List.pairwise_cons.2 ⟨fun x _ => Nat.zero_le x, List.sorted_insertionSort _ _⟩
        show ((genFragments (normalize s) _ 0).filter _).flatten = _
        rw [List.flatten_filter_not_isEmpty, genFragments_flatten _ _ _ hpw, List.drop_zero]
      · intro f hf2 hfe
        have hmem := (List.mem_filter.1 hf2).2
        rw [hfe] at hmem
        simp at hmem

/-- Fragments of a successful multi-enzyme digest: they concatenate to the
normalized sequence and none of them is empty. -/
theorem multi_fragments_spec {s : List Char} {l : List EnzymeData}
    {r : MultiDigestResult} (h : multiple_digest s l = .ok r) :
    r.fragments.flatten = normalize s ∧ ∀ f ∈ r.fragments, f ≠ [] := by
  rw [multiple_digest_ok h]
  dsimp only
  constructor
  · have hpw : ((0 : Nat) ::
        sortedDedup (l.flatMap (enzymeCuts (normalize s)))).Pairwise (· ≤ ·) :=
      List.pairwise_cons.2 ⟨fun x _ => Nat.zero_le x,
        (sortedDedup_sorted_lt _).imp (fun hab => Nat.le_of_lt hab)⟩
    rw [genFragments_flatten _ _ _ hpw, List.drop_zero]
  · apply genFragments_ne_nil
    intro c hc
    rw [mem_sortedDedup, List.mem_flatMap] at hc
    obtain ⟨e, _, hce⟩ := hc
    unfold enzymeCuts at hce
    rw [mem_cutPositions] at hce
    obtain ⟨_, _, _, hle⟩ := hce
    exact hle

/-- The single-enzyme digest succeeds exactly when the sequence and the
pattern pass the alphabet check. -/
theorem digest_dna_isOk (s p : List Char) (c5 : Int) (c3 : Option Int)
    (n : List Char) :
    (digest_dna s p c5 c3 n).isOk =
      (validSeq (normalize s) && validSeq (upperOnly p)) := by
  unfold digest_dna
  dsimp only
  have hio := find_isOk (normalize s) p
  rw [normalize_idem] at hio
  cases hf : find_restriction_sites (normalize s) p with
  | error e =>
    rw [hf] at hio
    dsimp only [Except.isOk, Except.toBool] at hio ⊢
    exact hio
  | ok sites =>
    rw [hf] at hio
    dsimp only
    by_cases hs : sites.isEmpty
    · rw [if_pos hs]
      dsimp only [Except.isOk, Except.toBool] at hio ⊢
      exact hio
    · rw [if_neg hs]
      dsimp only [Except.isOk, Except.toBool] at hio ⊢
      exact hio

/-! ### Claim theorems -/

/-- C1 (amended): for every successful `digest` or `multiDigest` call,
concatenating the returned fragments in order reproduces the normalized
input sequence exactly.  No returned fragment is the empty string, with one
exception: a `digest` call whose normalized sequence is empty (and hence has
no sites) returns exactly one fragment, the empty string.  `multiDigest`
never returns an empty fragment. -/
theorem c1_partition_amended :
    (∀ (s p : List Char) (c5 : Int) (c3 : Option Int) (n : List Char)
        (r : DigestResult), digest_dna s p c5 c3 n = .ok r →
        r.fragments.flatten = normalize s ∧
          (∀ f ∈ r.fragments, f = [] → (normalize s = [] ∧ r.fragments = [[]]))) ∧
    (∀ (s : List Char) (l : List EnzymeData) (r : MultiDigestResult),
        multiple_digest s l = .ok r →
        r.fragments.flatten = normalize s ∧ ∀ f ∈ r.fragments, f ≠ []) :=
  ⟨fun _ _ _ _ _ _ h => digest_fragments_spec h,
   fun _ _ _ h => multi_fragments_spec h⟩

/-- C1 counterexample: digesting the empty sequence with pattern `"A"` and
cut offset 0 succeeds and returns the fragment list `[""]`, so a returned
fragment is the empty string, refuting the claim for the empty sequence. -/
theorem c1_partition_counterexample :
    digest_dna [] ['A'] 0 none [] = .ok
      { enzyme := [], recognition_sequence := ['A'], cut_sites := [],
        fragments := [[]], fragment_lengths := [0], overhang_type := bluntStr,
        total_sites := 0, recognition_sites := none } ∧
    ([] : List Char) ∈ [([] : List Char)] :=
  ⟨rfl, List.mem_singleton.2 rfl⟩

/-- Witness for C1 (amended) at `digest("ATA","T",1)` and
`multiDigest("AT",[("","A",1)])`. -/
theorem c1_partition_witness :
    (∃ r : DigestResult, digest_dna ['A','T','A'] ['T'] 1 none [] = .ok r ∧
        r.fragments.flatten = normalize ['A','T','A'] ∧
        (∀ f ∈ r.fragments, f = [] →
          (normalize ['A','T','A'] = [] ∧ r.fragments = [[]]))) ∧
    (∃ r : MultiDigestResult,
        multiple_digest ['A','T'] [⟨[], ['A'], 1, none⟩] = .ok r ∧
        r.fragments.flatten = normalize ['A','T'] ∧ ∀ f ∈ r.fragments, f ≠ []) :=
  ⟨⟨{ enzyme := [], recognition_sequence := ['T'], cut_sites := [2],
      fragments := [['A','T'],['A']], fragment_lengths := [2,1],
      overhang_type := bluntStr, total_sites := 1, recognition_sites := some [1] },
    rfl,
    c1_partition_amended.1 ['A','T','A'] ['T'] 1 none []
      { enzyme := [], recognition_sequence := ['T'], cut_sites := [2],
        fragments := [['A','T'],['A']], fragment_lengths := [2,1],
        overhang_type := bluntStr, total_sites := 1, recognition_sites := some [1] }
      rfl⟩,
   ⟨{ enzymes := [⟨[], ['A'], 1, [1]⟩], total_cuts := 1, cut_positions := [1],
      fragments := [['A'],['T']], fragment_lengths := [1,1] },
    by decide,
    c1_partition_amended.2 ['A','T'] [⟨[], ['A'], 1, none⟩]
      { enzymes := [⟨[], ['A'], 1, [1]⟩], total_cuts := 1, cut_positions := [1],
        fragments := [['A'],['T']], fragment_lengths := [1,1] }
      (by decide)⟩⟩

/-- C2 counterexample: `multiDigest` with an invalid sequence and the empty
descriptor list succeeds (returning the unvalidated sequence as its single
fragment) instead of failing with `InvalidAlphabet`, refuting the claimed
equivalence for the empty descriptor list. -/
theorem c2_invalid_alphabet_counterexample :
    multiple_digest ['A','T','C','G','X'] [] = .ok
      { enzymes := [], total_cuts := 0, cut_positions := [],
        fragments := [['A','T','C','G','X']], fragment_lengths := [5] } ∧
    validSeq (normalize ['A','T','C','G','X']) = false :=
  ⟨by decide, rfl⟩

/-- C2 (amended): `digest` fails exactly when the normalized sequence or the
uppercased pattern contains a character outside `{A,T,C,G}`; `multiDigest`
satisfies the same equivalence whenever the descriptor list is non-empty,
but with an empty descriptor list it always succeeds, the sequence never
being validated.  Failure is atomic: an erring call returns only the error
message. -/
theorem c2_invalid_alphabet_amended :
    (∀ (s p : List Char) (c5 : Int) (c3 : Option Int) (n : List Char),
        (digest_dna s p c5 c3 n).isOk = false ↔
          (validSeq (normalize s) = false ∨ validSeq (upperOnly p) = false)) ∧
    (∀ (s : List Char) (l : List EnzymeData), l ≠ [] →
        ((multiple_digest s l).isOk = false ↔
          (validSeq (normalize s) = false ∨
            ∃ e ∈ l, validSeq (upperOnly e.recognition_seq) = false))) ∧
    (∀ s : List Char, (multiple_digest s []).isOk = true) := by
  refine ⟨?_, ?_, ?_⟩
  · intro s p c5 c3 n
    rw [digest_dna_isOk]
    cases h1 : validSeq (normalize s) <;> cases h2 : validSeq (upperOnly p) <;> simp
  · intro s l hl
    rw [multiple_digest_isOk]
    have hne : l.isEmpty = false := by simpa using hl
    rw [hne, Bool.false_or]
    cases h1 : validSeq (normalize s) <;> simp
  · intro s
    rw [multiple_digest_isOk]
    rfl

/-- Witness for C2 (amended) at `multiDigest("ATCGX", [("","A",0)])`. -/
theorem c2_invalid_alphabet_witness :
    [(⟨[], ['A'], 0, none⟩ : EnzymeData)] ≠ [] ∧
    ((multiple_digest ['A','T','C','G','X'] [⟨[], ['A'], 0, none⟩]).isOk = false ↔
      (validSeq (normalize ['A','T','C','G','X']) = false ∨
        ∃ e ∈ [(⟨[], ['A'], 0, none⟩ : EnzymeData)],
          validSeq (upperOnly e.recognition_seq) = false)) :=
  ⟨by simp, c2_invalid_alphabet_amended.2.1 ['A','T','C','G','X'] _ (by simp)⟩

/-- C3: `multiDigest` is invariant under permutation of the descriptor list
in its cut-coordinate list, total distinct cut count, and fragments; the
cut-coordinate list is the deduplicated union of all enzymes' surviving cut
coordinates sorted (strictly) ascending, so coincident cuts contribute one
coordinate and no fragment is empty. -/
theorem c3_multi_perm_and_dedup :
    (∀ (s : List Char) (l₁ l₂ : List EnzymeData) (r₁ r₂ : MultiDigestResult),
        l₁.Perm l₂ → multiple_digest s l₁ = .ok r₁ →
        multiple_digest s l₂ = .ok r₂ →
        r₁.cut_positions = r₂.cut_positions ∧ r₁.total_cuts = r₂.total_cuts ∧
          r₁.fragments = r₂.fragments) ∧
    (∀ (s : List Char) (l : List EnzymeData) (r : MultiDigestResult),
        multiple_digest s l = .ok r →
        r.cut_positions.Pairwise (· < ·) ∧
        (∀ c, c ∈ r.cut_positions ↔ ∃ i ∈ r.enzymes, c ∈ i.cut_positions) ∧
        (∀ f ∈ r.fragments, f ≠ [])) := by
  constructor
  · intro s l₁ l₂ r₁ r₂ hperm h₁ h₂
    rw [multiple_digest_ok h₁, multiple_digest_ok h₂]
    dsimp only
    have hcuts : sortedDedup (l₁.flatMap (enzymeCuts (normalize s))) =
        sortedDedup (l₂.flatMap (enzymeCuts (normalize s))) :=
      sortedDedup_congr_perm (hperm.flatMap_right _)
    exact ⟨hcuts, by rw [hcuts], by rw [hcuts]⟩
  · intro s l r h
    refine ⟨?_, ?_, (multi_fragments_spec h).2⟩
    · rw [multiple_digest_ok h]
      exact sortedDedup_sorted_lt _
    · intro c
      rw [multiple_digest_ok h]
      dsimp only
      rw [mem_sortedDedup, List.mem_flatMap]
      constructor
      · rintro ⟨e, he, hce⟩
        exact ⟨enzymeInfoOf (normalize s) e, List.mem_map_of_mem _ he, hce⟩
      · rintro ⟨i, hi, hci⟩
        obtain ⟨e, he, rfl⟩ := List.mem_map.1 hi
        exact ⟨e, he, hci⟩

/-- Witness for C3 at `multiDigest("GGGGAATTCCCC")` with descriptors
`("E1","GAATTC",1)` and `("E2","GGAA",3)` in both orders; their cuts are 4
and 5. -/
theorem c3_multi_witness :
    ∃ r₁ r₂ : MultiDigestResult,
      multiple_digest ['G','G','G','G','A','A','T','T','C','C','C','C']
        [⟨['E','1'], ['G','A','A','T','T','C'], 1, none⟩,
         ⟨['E','2'], ['G','G','A','A'], 3, none⟩] = .ok r₁ ∧
      multiple_digest ['G','G','G','G','A','A','T','T','C','C','C','C']
        [⟨['E','2'], ['G','G','A','A'], 3, none⟩,
         ⟨['E','1'], ['G','A','A','T','T','C'], 1, none⟩] = .ok r₂ ∧
      (r₁.cut_positions = r₂.cut_positions ∧ r₁.total_cuts = r₂.total_cuts ∧
        r₁.fragments = r₂.fragments) ∧
      (r₁.cut_positions.Pairwise (· < ·) ∧
        (∀ c, c ∈ r₁.cut_positions ↔ ∃ i ∈ r₁.enzymes, c ∈ i.cut_positions) ∧
        (∀ f ∈ r₁.fragments, f ≠ [])) :=
  ⟨{ enzymes := [⟨['E','1'], ['G','A','A','T','T','C'], 1, [4]⟩,
                 ⟨['E','2'], ['G','G','A','A'], 1, [5]⟩],
     total_cuts := 2, cut_positions := [4, 5],
     fragments := [['G','G','G','G'], ['A'], ['A','T','T','C','C','C','C']],
     fragment_lengths := [4, 1, 7] },
   { enzymes := [⟨['E','2'], ['G','G','A','A'], 1, [5]⟩,
                 ⟨['E','1'], ['G','A','A','T','T','C'], 1, [4]⟩],
     total_cuts := 2, cut_positions := [4, 5],
     fragments := [['G','G','G','G'], ['A'], ['A','T','T','C','C','C','C']],
     fragment_lengths := [4, 1, 7] },
   by decide, by decide,
   c3_multi_perm_and_dedup.1 ['G','G','G','G','A','A','T','T','C','C','C','C']
     [⟨['E','1'], ['G','A','A','T','T','C'], 1, none⟩,
      ⟨['E','2'], ['G','G','A','A'], 3, none⟩]
     [⟨['E','2'], ['G','G','A','A'], 3, none⟩,
      ⟨['E','1'], ['G','A','A','T','T','C'], 1, none⟩]
     _ _
     (List.Perm.swap (⟨['E','2'], ['G','G','A','A'], 3, none⟩ : EnzymeData)
       (⟨['E','1'], ['G','A','A','T','T','C'], 1, none⟩ : EnzymeData) [])
     (by decide) (by decide),
   c3_multi_perm_and_dedup.2 ['G','G','G','G','A','A','T','T','C','C','C','C']
     [⟨['E','1'], ['G','A','A','T','T','C'], 1, none⟩,
      ⟨['E','2'], ['G','G','A','A'], 3, none⟩]
     _ (by decide)⟩

/-- C4: whenever the site search of a valid digest finds no site, the digest
succeeds with an empty cut list, a zero site count, the whole normalized
sequence as the single fragment (with its length), and the overhang
classification computed from the two cut positions; in particular
`digest("ATCGATCG","EcoRI","GAATTC",1)` yields site count 0, fragments
`["ATCGATCG"]` and fragment lengths `[8]`. -/
theorem c4_no_site_behavior :
    (∀ (s p : List Char) (c5 : Int) (c3 : Option Int) (n : List Char),
        find_restriction_sites (normalize s) p = .ok [] →
        digest_dna s p c5 c3 n = .ok
          { enzyme := n, recognition_sequence := p, cut_sites := [],
            fragments := [normalize s],
            fragment_lengths := [(normalize s).length],
            overhang_type := get_overhang_type c5 (c3.getD c5), total_sites := 0,
            recognition_sites := none }) ∧
    digest_dna ['A','T','C','G','A','T','C','G'] ['G','A','A','T','T','C'] 1 none
      ['E','c','o','R','I'] = .ok
      { enzyme := ['E','c','o','R','I'],
        recognition_sequence := ['G','A','A','T','T','C'], cut_sites := [],
        fragments := [['A','T','C','G','A','T','C','G']], fragment_lengths := [8],
        overhang_type := bluntStr, total_sites := 0, recognition_sites := none } :=
  ⟨fun _ _ _ _ _ hf => digest_dna_no_sites hf, by decide⟩

/-- Witness for C4 at `digest("TT","","A",0)`: the pattern is absent. -/
theorem c4_no_site_witness :
    digest_dna ['T','T'] ['A'] 0 none [] = .ok
      { enzyme := [], recognition_sequence := ['A'], cut_sites := [],
        fragments := [normalize ['T','T']],
        fragment_lengths := [(normalize ['T','T']).length],
        overhang_type := get_overhang_type 0 ((none : Option Int).getD 0),
        total_sites := 0, recognition_sites := none } :=
  c4_no_site_behavior.1 ['T','T'] ['A'] 0 none [] (by decide)

/-- C5: for every valid sequence and valid non-empty pattern, `findSites`
returns exactly the start positions at which the pattern occurs within the
window bound, in strictly increasing order (reporting overlaps); it returns
`[0,1,2]` on `"AAAA"`/`"AA"`, and the empty list when the pattern is longer
than the sequence. -/
theorem c5_find_sites_characterization :
    (∀ s p : List Char,
        validSeq (normalize s) = true → validSeq (upperOnly p) = true →
        p ≠ [] →
        ∃ sites : List Nat, find_restriction_sites s p = .ok sites ∧
          sites.Pairwise (· < ·) ∧
          (∀ i, i ∈ sites ↔ i + p.length ≤ (normalize s).length ∧
            ((normalize s).drop i).take p.length = upperOnly p) ∧
          ((normalize s).length < p.length → sites = [])) ∧
    find_restriction_sites ['A','A','A','A'] ['A','A'] = .ok [0, 1, 2] := by
  constructor
  · intro s p h1 h2 hp
    refine ⟨sitesScan (normalize s) (upperOnly p), ?_, sitesScan_pairwise _ _,
      ?_, ?_⟩
    · unfold find_restriction_sites
      simp [h1, h2]
    · intro i
      rw [mem_sitesScan]
      unfold upperOnly
      rw [List.length_map]
    · intro hlen
      rw [List.eq_nil_iff_forall_not_mem]
      intro i hi
      rw [mem_sitesScan] at hi
      have h3 := hi.1
      unfold upperOnly at h3
      rw [List.length_map] at h3
      omega
  · decide

/-- Witness for C5 at the `"AAAA"`/`"AA"` example. -/
theorem c5_find_sites_witness :
    ∃ sites : List Nat,
      find_restriction_sites ['A','A','A','A'] ['A','A'] = .ok sites ∧
      sites.Pairwise (· < ·) ∧
      (∀ i, i ∈ sites ↔
        i + (['A','A'] : List Char).length ≤ (normalize ['A','A','A','A']).length ∧
        ((normalize ['A','A','A','A']).drop i).take (['A','A'] : List Char).length =
          upperOnly ['A','A']) ∧
      ((normalize ['A','A','A','A']).length < (['A','A'] : List Char).length →
        sites = []) :=
  c5_find_sites_characterization.1 ['A','A','A','A'] ['A','A']
    (by decide) (by decide) (by decide)

/-- C6 counterexample: reached with the empty pattern, `findSites` does not
fail; on `"ATG"` it returns every position `[0,1,2,3]`. -/
theorem c6_empty_pattern_counterexample :
    find_restriction_sites ['A','T','G'] [] = .ok [0, 1, 2, 3] := by decide

/-- C6 (amended): reached with an empty pattern and a valid sequence,
`findSites` succeeds and returns every start position `0..len(sequence)`
(the empty pattern matches everywhere) instead of failing. -/
theorem c6_empty_pattern_amended :
    ∀ s : List Char, validSeq (normalize s) = true →
      find_restriction_sites s [] =
        .ok (List.range ((normalize s).length + 1)) := by
  intro s h1
  have hscan : sitesScan (normalize s) (upperOnly []) =
      List.range ((normalize s).length + 1) := by
    unfold sitesScan upperOnly
    simp
  unfold find_restriction_sites
  dsimp only
  rw [if_neg (by simp [h1]), if_neg (by decide), hscan]

/-- Witness for C6 (amended) at sequence `"ATG"`. -/
theorem c6_empty_pattern_witness :
    find_restriction_sites ['A','T','G'] ([] : List Char) =
      .ok (List.range ((normalize ['A','T','G']).length + 1)) :=
  c6_empty_pattern_amended ['A','T','G'] (by decide)

/-- C7: out-of-range cut coordinates are silently discarded, never an error:
any digest with valid alphabet succeeds whatever the cut offset, and every
cut coordinate in a returned result (single- or multi-enzyme, including the
per-enzyme lists) lies within `[0, len(sequence)]`. -/
theorem c7_out_of_range_cuts :
    (∀ (s p : List Char) (c5 : Int) (c3 : Option Int) (n : List Char),
        validSeq (normalize s) = true → validSeq (upperOnly p) = true →
        (digest_dna s p c5 c3 n).isOk = true) ∧
    (∀ (s : List Char) (l : List EnzymeData),
        validSeq (normalize s) = true →
        (∀ e ∈ l, validSeq (upperOnly e.recognition_seq) = true) →
        (multiple_digest s l).isOk = true) ∧
    (∀ (s p : List Char) (c5 : Int) (c3 : Option Int) (n : List Char)
        (r : DigestResult), digest_dna s p c5 c3 n = .ok r →
        ∀ c ∈ r.cut_sites, c ≤ (normalize s).length) ∧
    (∀ (s : List Char) (l : List EnzymeData) (r : MultiDigestResult),
        multiple_digest s l = .ok r →
        (∀ c ∈ r.cut_positions, c ≤ (normalize s).length) ∧
        (∀ i ∈ r.enzymes, ∀ c ∈ i.cut_positions, c ≤ (normalize s).length)) := by
  refine ⟨?_, ?_, ?_, ?_⟩
  · intro s p c5 c3 n h1 h2
    rw [digest_dna_isOk, h1, h2]
    rfl
  · intro s l h1 h2
    rw [multiple_digest_isOk, h1]
    have hall : l.all (fun e => validSeq (upperOnly e.recognition_seq)) = true :=
      List.all_eq_true.2 (fun e he => h2 e he)
    rw [hall]
    simp
  · intro s p c5 c3 n r h c hc
    cases hf : find_restriction_sites (normalize s) p with
    | error e =>
      unfold digest_dna at h
      dsimp only at h
      rw [hf] at h
      exact absurd h (by simp)
    | ok sites =>
      by_cases hs : sites = []
      · subst hs
        rw [digest_dna_no_sites hf] at h
        injection h with h
        subst h
        exact absurd hc (List.not_mem_nil c)
      · rw [digest_dna_with_sites hf hs] at h
        injection h with h
        subst h
        obtain ⟨_, _, _, hle⟩ := mem_cutPositions.1 hc
        exact hle
  · intro s l r h
    rw [multiple_digest_ok h]
    dsimp only
    constructor
    · intro c hc
      rw [mem_sortedDedup, List.mem_flatMap] at hc
      obtain ⟨e, _, hce⟩ := hc
      obtain ⟨_, _, _, hle⟩ := mem_cutPositions.1 hce
      exact hle
    · intro i hi c hc
      obtain ⟨e, _, rfl⟩ := List.mem_map.1 hi
      obtain ⟨_, _, _, hle⟩ := mem_cutPositions.1 hc
      exact hle

/-- Witness for C7 at cut offset 5 exceeding the pattern length 1 on
sequence `"AT"`: the calls succeed and all reported cuts are in range. -/
theorem c7_out_of_range_witness :
    ((digest_dna ['A','T'] ['A'] 5 none []).isOk = true) ∧
    ((multiple_digest ['A','T'] [⟨[], ['A'], 5, none⟩]).isOk = true) ∧
    (∀ c ∈ ({ enzyme := [], recognition_sequence := ['A'], cut_sites := [],
              fragments := [['A','T']], fragment_lengths := [2],
              overhang_type := bluntStr, total_sites := 1,
              recognition_sites := some [0] } : DigestResult).cut_sites,
        c ≤ (normalize ['A','T']).length) ∧
    ((∀ c ∈ ({ enzymes := [⟨[], ['A'], 1, []⟩], total_cuts := 0,
               cut_positions := [], fragments := [['A','T']],
               fragment_lengths := [2] } : MultiDigestResult).cut_positions,
        c ≤ (normalize ['A','T']).length) ∧
      (∀ i ∈ ({ enzymes := [⟨[], ['A'], 1, []⟩], total_cuts := 0,
                cut_positions := [], fragments := [['A','T']],
                fragment_lengths := [2] } : MultiDigestResult).enzymes,
        ∀ c ∈ i.cut_positions, c ≤ (normalize ['A','T']).length)) :=
  ⟨c7_out_of_range_cuts.1 ['A','T'] ['A'] 5 none [] (by decide) (by decide),
   c7_out_of_range_cuts.2.1 ['A','T'] [⟨[], ['A'], 5, none⟩] (by decide)
     (by decide),
   c7_out_of_range_cuts.2.2.1 ['A','T'] ['A'] 5 none [] _ (by decide),
   c7_out_of_range_cuts.2.2.2 ['A','T'] [⟨[], ['A'], 5, none⟩] _ (by decide)⟩

/-- C8: in the zero-site branch the digest result omits the recognition-site
list (the `'recognition_sites'` key is absent, modelled as `none`), so no
result with site count 0 ever carries the field; evaluated in particular at
`digest("ATCGATCG","EcoRI","GAATTC",1)`. -/
theorem c8_site_offsets_field :
    (∀ (s p : List Char) (c5 : Int) (c3 : Option Int) (n : List Char)
        (r : DigestResult), digest_dna s p c5 c3 n = .ok r →
        r.total_sites = 0 → r.recognition_sites = none) ∧
    (∃ r : DigestResult,
      digest_dna ['A','T','C','G','A','T','C','G'] ['G','A','A','T','T','C'] 1
        none ['E','c','o','R','I'] = .ok r ∧
      r.total_sites = 0 ∧ r.recognition_sites = none) := by
  constructor
  · intro s p c5 c3 n r h h0
    cases hf : find_restriction_sites (normalize s) p with
    | error e =>
      unfold digest_dna at h
      dsimp only at h
      rw [hf] at h
      exact absurd h (by simp)
    | ok sites =>
      by_cases hs : sites = []
      · subst hs
        rw [digest_dna_no_sites hf] at h
        injection h with h
        subst h
        rfl
      · rw [digest_dna_with_sites hf hs] at h
        injection h with h
        subst h
        exact absurd (List.length_eq_zero.1 h0) hs
  · exact ⟨{ enzyme := ['E','c','o','R','I'],
             recognition_sequence := ['G','A','A','T','T','C'], cut_sites := [],
             fragments := [['A','T','C','G','A','T','C','G']],
             fragment_lengths := [8], overhang_type := bluntStr,
             total_sites := 0, recognition_sites := none },
           by decide, rfl, rfl⟩

/-- Witness for C8 at `digest("ATG","","C",0)` (pattern absent, zero
sites). -/
theorem c8_site_offsets_witness :
    ({ enzyme := [], recognition_sequence := ['C'], cut_sites := [],
       fragments := [['A','T','G']], fragment_lengths := [3],
       overhang_type := bluntStr, total_sites := 0,
       recognition_sites := none } : DigestResult).recognition_sites = none :=
  c8_site_offsets_field.1 ['A','T','G'] ['C'] 0 none []
    { enzyme := [], recognition_sequence := ['C'], cut_sites := [],
      fragments := [['A','T','G']], fragment_lengths := [3],
      overhang_type := bluntStr, total_sites := 0, recognition_sites := none }
    (by decide) rfl

/-- C9: digesting any sequence equals digesting its normalized (uppercased,
whitespace-free) version, for both the single- and the multi-enzyme path;
and the overhang label is `"blunt"` exactly when `cut5 = cut3`, the
five-prime label exactly when `cut5 > cut3`, and the three-prime label
exactly when `cut5 < cut3`. -/
theorem c9_normalization_and_overhang :
    (∀ (s p : List Char) (c5 : Int) (c3 : Option Int) (n : List Char),
        digest_dna s p c5 c3 n = digest_dna (normalize s) p c5 c3 n) ∧
    (∀ (s : List Char) (l : List EnzymeData),
        multiple_digest s l = multiple_digest (normalize s) l) ∧
    (∀ c5 c3 : Int,
        (get_overhang_type c5 c3 = bluntStr ↔ c5 = c3) ∧
        (get_overhang_type c5 c3 = fiveStr ↔ c5 > c3) ∧
        (get_overhang_type c5 c3 = threeStr ↔ c5 < c3)) := by
  refine ⟨?_, ?_, ?_⟩
  · intro s p c5 c3 n
    unfold digest_dna
    rw [normalize_idem]
  · intro s l
    unfold multiple_digest
    rw [normalize_idem]
  · intro c5 c3
    unfold get_overhang_type
    rcases lt_trichotomy c5 c3 with h | h | h
    · rw [if_neg (by omega), if_neg (by omega)]
      exact ⟨⟨fun hh => absurd hh (by decide), fun hh => absurd hh (by omega)⟩,
             ⟨fun hh => absurd hh (by decide), fun hh => absurd hh (by omega)⟩,
             ⟨fun _ => h, fun _ => rfl⟩⟩
    · rw [if_pos h]
      exact ⟨⟨fun _ => h, fun _ => rfl⟩,
             ⟨fun hh => absurd hh (by decide), fun hh => absurd hh (by omega)⟩,
             ⟨fun hh => absurd hh (by decide), fun hh => absurd hh (by omega)⟩⟩
    · rw [if_neg (by omega), if_pos (by omega)]
      exact ⟨⟨fun hh => absurd hh (by decide), fun hh => absurd hh (by omega)⟩,
             ⟨fun _ => h, fun _ => rfl⟩,
             ⟨fun hh => absurd hh (by decide), fun hh => absurd hh (by omega)⟩⟩

/-- C10: the `cutCoordinates` list of every successful single-enzyme digest
is strictly increasing and therefore duplicate-free. -/
theorem c10_single_digest_cuts_strictly_increasing :
    ∀ (s p : List Char) (c5 : Int) (c3 : Option Int) (n : List Char)
      (r : DigestResult), digest_dna s p c5 c3 n = .ok r →
      r.cut_sites.Pairwise (· < ·) ∧ r.cut_sites.Nodup := by
  intro s p c5 c3 n r h
  cases hf : find_restriction_sites (normalize s) p with
  | error e =>
    unfold digest_dna at h
    dsimp only at h
    rw [hf] at h
    exact absurd h (by simp)
  | ok sites =>
    by_cases hs : sites = []
    · subst hs
      rw [digest_dna_no_sites hf] at h
      injection h with h
      subst h
      exact ⟨List.Pairwise.nil, List.nodup_nil⟩
    · rw [digest_dna_with_sites hf hs] at h
      injection h with h
      subst h
      obtain ⟨_, _, hsites⟩ := find_ok hf
      have hpw : sites.Pairwise (· < ·) := by
        rw [hsites]
        exact sitesScan_pairwise _ _
      have hcut := cutPositions_pairwise (normalize s).length c5 hpw
      exact ⟨hcut, hcut.imp (fun hab => Nat.ne_of_lt hab)⟩

/-- Witness for C10 at `digest("ATCGATCG","","GAT",1)`: cut list `[4]`. -/
theorem c10_single_digest_cuts_witness :
    (({ enzyme := ['C','u','s','t','o','m'],
        recognition_sequence := ['G','A','T'], cut_sites := [4],
        fragments := [['A','T','C','G'], ['A','T','C','G']],
        fragment_lengths := [4, 4], overhang_type := bluntStr,
        total_sites := 1,
        recognition_sites := some [3] } : DigestResult).cut_sites.Pairwise
          (· < ·)) ∧
    (({ enzyme := ['C','u','s','t','o','m'],
        recognition_sequence := ['G','A','T'], cut_sites := [4],
        fragments := [['A','T','C','G'], ['A','T','C','G']],
        fragment_lengths := [4, 4], overhang_type := bluntStr,
        total_sites := 1,
        recognition_sites := some [3] } : DigestResult).cut_sites.Nodup) :=
  c10_single_digest_cuts_strictly_increasing ['A','T','C','G','A','T','C','G']
    ['G','A','T'] 1 none ['C','u','s','t','o','m']
    { enzyme := ['C','u','s','t','o','m'],
      recognition_sequence := ['G','A','T'], cut_sites := [4],
      fragments := [['A','T','C','G'], ['A','T','C','G']],
      fragment_lengths := [4, 4], overhang_type := bluntStr, total_sites := 1,
      recognition_sites := some [3] }
    (by decide)

end DNADigest
